import Mathlib

/-!
Verification development for the armnn reference convolution kernel
(src/armnn/backends/RefWorkloads/ConvImpl.hpp).

The kernel is embedded shallowly:

* machine integers are modelled as Lean Int; the accumulator type is unbounded Int,
  matching the documented invariant that the accumulator is wide enough to hold the
  whole multiply-accumulate sum without overflow;
* tensor buffers are total functions Nat → Int from flat NCHW indices to element
  values (the C++ kernel reads raw pointers under a caller-supplied size guarantee);
* the float scales only feed the outputScale-is-zero branch and the construction of
  the quantized multiplier, so outputScale is modelled as a rational and the
  constructed multiplier by its stored integer state;
* the range-checked boost numeric conversion at the output write is modelled with
  Option, none standing for the thrown exception;
* the bias assertion is modelled by an Option-valued kernel that returns none when
  the assertion fires.
-/

set_option linter.unusedVariables false

namespace ArmnnRef

def int32Min : Int := -(2 ^ 31)

def int32Max : Int := 2 ^ 31 - 1

/-- Modelled from the spec: the body of
SaturatingRoundingDoublingHighMul (declared at ConvImpl.hpp line 36) lives in a
translation unit that is not among the sources. Per the spec it computes the rounded
high 32 bits of the doubled signed 64-bit product — a rounded approximation of
(a * b) / 2^31 — with explicit saturation to the int32 maximum when both operands
equal the most negative int32 value, the only pair whose exact result overflows. -/
def SaturatingRoundingDoublingHighMul (a b : Int) : Int :=
  if a = int32Min ∧ b = int32Min then
    int32Max
  else
    Int.tdiv (a * b + (if 0 ≤ a * b then 2 ^ 30 else 1 - 2 ^ 30)) (2 ^ 31)

/-- Modelled from the spec: the body of RoundingDivideByPOT (declared at
ConvImpl.hpp line 39) is not among the sources. Per the spec it is an arithmetic
right shift by the exponent with round half away from zero: add 2^(exponent-1)
before shifting for non-negative operands and the mirrored adjustment for negative
operands; exponent zero is the identity. -/
def RoundingDivideByPOT (x : Int) (exponent : Nat) : Int :=
  if exponent = 0 then x
  else if 0 ≤ x then (x + 2 ^ (exponent - 1)) / 2 ^ exponent
  else -((-x + 2 ^ (exponent - 1)) / 2 ^ exponent)

/-- Stored state of a constructed QuantizedMultiplierSmallerThanOne
(ConvImpl.hpp lines 41-42). The float constructor is not among the sources and
operates on IEEE floats, so the theorems quantify over the stored state. -/
structure QuantizedMultiplierSmallerThanOne where
  m_Multiplier : Int
  m_RightShift : Nat

/-- Modelled from the spec: operator* (declared at ConvImpl.hpp line 32) first
high-multiplies by the stored significand and then rounding-divides by
2^m_RightShift. -/
def quantizedMultiplierApply (qm : QuantizedMultiplierSmallerThanOne) (rhs : Int) : Int :=
  RoundingDivideByPOT (SaturatingRoundingDoublingHighMul qm.m_Multiplier rhs) qm.m_RightShift

/-- Rank-4 NCHW tensor shape: d0 = batch, d1 = channels, d2 = height, d3 = width. -/
structure TensorShape where
  d0 : Nat
  d1 : Nat
  d2 : Nat
  d3 : Nat

/-- Descriptor fields of ConvData read by ConvImpl. -/
structure ConvParameters where
  m_PadTop : Nat
  m_PadLeft : Nat
  m_StrideY : Nat
  m_StrideX : Nat
  m_BiasEnabled : Bool

/-- The parts of ConvData that ConvImpl reads: the input and output tensor shapes,
the weight tensor shape, and the descriptor. -/
structure ConvData where
  inputShape : TensorShape
  outputShape : TensorShape
  filterShape : TensorShape
  m_Parameters : ConvParameters

/-- ConvImpl.hpp line 64: the depth multiplier is filter dim 0 in depthwise mode. -/
def depthMult (data : ConvData) (depthwise : Bool) : Nat :=
  if depthwise then data.filterShape.d0 else 1

/-- ConvImpl.hpp line 65: the input channel count is filter dim 1. -/
def channelsInput (data : ConvData) : Nat := data.filterShape.d1

/-- ConvImpl.hpp line 66: output channels are input channels times the depth
multiplier in depthwise mode, and filter dim 0 otherwise. -/
def channelsOutput (data : ConvData) (depthwise : Bool) : Nat :=
  if depthwise then channelsInput data * depthMult data depthwise else data.filterShape.d0

/-- The padding test of ConvImpl.hpp lines 139-140: the coordinate (yInput, xInput)
lies in the padded border. -/
def inPadding (data : ConvData) (yInput xInput : Nat) : Prop :=
  yInput < data.m_Parameters.m_PadTop ∨
  yInput ≥ data.inputShape.d2 + data.m_Parameters.m_PadTop ∨
  xInput < data.m_Parameters.m_PadLeft ∨
  xInput ≥ data.inputShape.d3 + data.m_Parameters.m_PadLeft

instance (data : ConvData) (yInput xInput : Nat) :
    Decidable (inPadding data yInput xInput) := by
  unfold inPadding
  infer_instance

/-- Input contribution of one kernel-window position (ConvImpl.hpp lines 136-151):
zero inside the padded border, and otherwise the buffer element at the flat NCHW
index built from the pad-corrected coordinate, minus the input zero-point. -/
def inputValue (data : ConvData) (inputData : Nat → Int) (inputOffset : Int)
    (batchIdx cInput yInput xInput : Nat) : Int :=
  if inPadding data yInput xInput then 0
  else
    inputData (batchIdx * data.inputShape.d3 * data.inputShape.d2 * channelsInput data +
               data.inputShape.d3 * data.inputShape.d2 * cInput +
               data.inputShape.d3 * (yInput - data.m_Parameters.m_PadTop) +
               xInput - data.m_Parameters.m_PadLeft) - inputOffset

/-- Flat filter index (ConvImpl.hpp lines 113-129). -/
def filterIndex (data : ConvData) (depthwise : Bool)
    (cOutput cInput depthwiseMultiplierIdx yFilter xFilter : Nat) : Nat :=
  if depthwise then
    depthwiseMultiplierIdx * data.filterShape.d3 * data.filterShape.d2 * channelsInput data +
      cInput * data.filterShape.d3 * data.filterShape.d2 +
      yFilter * data.filterShape.d3 + xFilter
  else
    cOutput * data.filterShape.d3 * data.filterShape.d2 * channelsInput data +
      cInput * data.filterShape.d3 * data.filterShape.d2 +
      yFilter * data.filterShape.d3 + xFilter

/-- Filter contribution of one kernel-window position (ConvImpl.hpp lines 130-131). -/
def filterValue (data : ConvData) (depthwise : Bool) (filterData : Nat → Int)
    (filterOffset : Int) (cOutput cInput depthwiseMultiplierIdx yFilter xFilter : Nat) : Int :=
  filterData (filterIndex data depthwise cOutput cInput depthwiseMultiplierIdx yFilter xFilter) -
    filterOffset

/-- Channels visited by the cInput loop (ConvImpl.hpp lines 98-105): the loop body
runs exactly once in depthwise mode, with cInput reassigned to cOutput / depthMult,
and once per input channel otherwise. -/
def channelList (data : ConvData) (depthwise : Bool) (cOutput : Nat) : List Nat :=
  if depthwise then [cOutput / depthMult data depthwise] else List.range (channelsInput data)

/-- The multiply-accumulate over the kernel window and contributing channels for one
output element (ConvImpl.hpp lines 94-155), before the bias is added. -/
def windowSum (data : ConvData) (depthwise : Bool) (inputData : Nat → Int)
    (inputOffset : Int) (filterData : Nat → Int) (filterOffset : Int)
    (batchIdx cOutput yOutput xOutput : Nat) : Int :=
  ((channelList data depthwise cOutput).map fun cInput =>
    ((List.range data.filterShape.d2).map fun yFilter =>
      ((List.range data.filterShape.d3).map fun xFilter =>
        filterValue data depthwise filterData filterOffset cOutput cInput
            (if depthwise then cOutput % depthMult data depthwise else 0) yFilter xFilter *
          inputValue data inputData inputOffset batchIdx cInput
            (yOutput * data.m_Parameters.m_StrideY + yFilter)
            (xOutput * data.m_Parameters.m_StrideX + xFilter)).sum).sum).sum

/-- The raw accumulator for one output element: the window sum plus the bias when
m_BiasEnabled (ConvImpl.hpp lines 157-160). -/
def accumulatorValue (data : ConvData) (depthwise : Bool) (inputData : Nat → Int)
    (inputOffset : Int) (filterData : Nat → Int) (filterOffset : Int)
    (biasData : Nat → Int) (batchIdx cOutput yOutput xOutput : Nat) : Int :=
  windowSum data depthwise inputData inputOffset filterData filterOffset
      batchIdx cOutput yOutput xOutput +
    (if data.m_Parameters.m_BiasEnabled then biasData cOutput else 0)

/-- Requantization step (ConvImpl.hpp lines 162-172): when outputScale is nonzero,
apply the quantized multiplier to the accumulator, add outputOffset, then clamp into
[0, 255]; when outputScale is zero the accumulator passes through untouched. -/
def requantize (outputScale : ℚ) (qm : QuantizedMultiplierSmallerThanOne)
    (outputOffset : Int) (sum : Int) : Int :=
  if outputScale ≠ 0 then
    min (max (quantizedMultiplierApply qm sum + outputOffset) 0) 255
  else sum

/-- The value of one output element just before the final narrowing conversion. -/
def ConvImplElem (data : ConvData) (depthwise : Bool) (inputData : Nat → Int)
    (inputOffset : Int) (filterData : Nat → Int) (filterOffset : Int)
    (biasData : Nat → Int) (outputScale : ℚ) (qm : QuantizedMultiplierSmallerThanOne)
    (outputOffset : Int) (batchIdx cOutput yOutput xOutput : Nat) : Int :=
  requantize outputScale qm outputOffset
    (accumulatorValue data depthwise inputData inputOffset filterData filterOffset biasData
      batchIdx cOutput yOutput xOutput)

/-- Range-checked narrowing to the unsigned 8-bit output element type (the checked
numeric conversion at ConvImpl.hpp line 177): none models the raised error on an
out-of-range value, so the conversion never wraps. -/
def numericCastU8 (v : Int) : Option Int :=
  if 0 ≤ v ∧ v ≤ 255 then some v else none

/-- One narrowed output element as written to the output buffer. -/
def ConvImplWrite (data : ConvData) (depthwise : Bool) (inputData : Nat → Int)
    (inputOffset : Int) (filterData : Nat → Int) (filterOffset : Int)
    (biasData : Nat → Int) (outputScale : ℚ) (qm : QuantizedMultiplierSmallerThanOne)
    (outputOffset : Int) (batchIdx cOutput yOutput xOutput : Nat) : Option Int :=
  numericCastU8 (ConvImplElem data depthwise inputData inputOffset filterData filterOffset
    biasData outputScale qm outputOffset batchIdx cOutput yOutput xOutput)

/-- The whole output buffer in the order the loop nest writes it (ConvImpl.hpp lines
85-181); position batch*Wout*Hout*Cout + cOutput*Wout*Hout + yOutput*Wout + xOutput
holds the element for that output coordinate. -/
def ConvImplOut (data : ConvData) (depthwise : Bool) (inputData : Nat → Int)
    (inputOffset : Int) (filterData : Nat → Int) (filterOffset : Int)
    (biasData : Nat → Int) (outputScale : ℚ) (qm : QuantizedMultiplierSmallerThanOne)
    (outputOffset : Int) : List (Option Int) :=
  (List.range data.outputShape.d0).flatMap fun batchIdx =>
    (List.range (channelsOutput data depthwise)).flatMap fun cOutput =>
      (List.range data.outputShape.d2).flatMap fun yOutput =>
        (List.range data.outputShape.d3).map fun xOutput =>
          ConvImplWrite data depthwise inputData inputOffset filterData filterOffset biasData
            outputScale qm outputOffset batchIdx cOutput yOutput xOutput

/-- The kernel including the bias assertion of ConvImpl.hpp line 68: a null bias
buffer together with m_BiasEnabled is the fatal assertion failure, modelled as none. -/
def ConvImpl (data : ConvData) (inputData : Nat → Int) (inputOffset : Int)
    (filterData : Nat → Int) (filterOffset : Int) (biasData : Option (Nat → Int))
    (outputScale : ℚ) (qm : QuantizedMultiplierSmallerThanOne) (outputOffset : Int)
    (depthwise : Bool) : Option (List (Option Int)) :=
  match biasData with
  | none =>
    if data.m_Parameters.m_BiasEnabled then none
    else
      some (ConvImplOut data depthwise inputData inputOffset filterData filterOffset
        (fun _ => 0) outputScale qm outputOffset)
  | some bias =>
    some (ConvImplOut data depthwise inputData inputOffset filterData filterOffset bias
      outputScale qm outputOffset)

/-! ## Shared helper lemmas and sample inputs -/

/-- Two-dimensional flat index bound, row stride on the left factor. -/
lemma sub2_lt {W H u v : Nat} (hu : u < H) (hv : v < W) : W * u + v < W * H := by
  calc W * u + v < W * u + W := by omega
    _ = W * (u + 1) := by ring
    _ ≤ W * H := Nat.mul_le_mul_left W hu

/-- The clamp of the requantization step lands in [0, 255]. -/
lemma clamp_mem (v : Int) : 0 ≤ min (max v 0) 255 ∧ min (max v 0) 255 ≤ 255 :=
  ⟨le_min (le_max_right _ _) (by norm_num), min_le_right _ _⟩

/-- Sample job: 1 batch, 1 channel, 2x2 input and output, 1x1 filter, stride 1,
no padding, bias disabled. -/
def identData : ConvData := ⟨⟨1, 1, 2, 2⟩, ⟨1, 1, 2, 2⟩, ⟨1, 1, 1, 1⟩, ⟨0, 0, 1, 1, false⟩⟩

/-- Sample input buffer holding [[1, 2], [3, 4]]. -/
def identInput : Nat → Int := fun i => [1, 2, 3, 4].getD i 0

/-- Sample job whose whole kernel window lies in the padded border at output
coordinate (0, 0): 1x1 input with one-pixel top and left padding. -/
def padData : ConvData := ⟨⟨1, 1, 1, 1⟩, ⟨1, 1, 1, 1⟩, ⟨1, 1, 1, 1⟩, ⟨1, 1, 1, 1, false⟩⟩

/-! ## Claim theorems -/

/-- C7: SaturatingRoundingDoublingHighMul is commutative over all int32 pairs; on the
unique overflowing pair (int32Min, int32Min) it saturates to int32Max; on every other
pair it returns the rounded high 32 bits of the doubled signed 64-bit product, namely
the nearest integer to 2*a*b / 2^32 with halves rounded up. -/
theorem C7_SaturatingRoundingDoublingHighMul_spec :
    (∀ a b : Int,
      SaturatingRoundingDoublingHighMul a b = SaturatingRoundingDoublingHighMul b a) ∧
    SaturatingRoundingDoublingHighMul int32Min int32Min = int32Max ∧
    (∀ a b : Int, ¬(a = int32Min ∧ b = int32Min) →
      SaturatingRoundingDoublingHighMul a b = (2 * (a * b) + 2 ^ 31) / 2 ^ 32) := by
  refine ⟨?_, ?_, ?_⟩
  · intro a b
    unfold SaturatingRoundingDoublingHighMul
    by_cases h : a = int32Min ∧ b = int32Min
    · rw [if_pos h, if_pos (And.intro h.2 h.1)]
    · have h' : ¬(b = int32Min ∧ a = int32Min) := fun hc => h (And.intro hc.2 hc.1)
      rw [if_neg h, if_neg h', mul_comm b a]
  · simp [SaturatingRoundingDoublingHighMul]
  · intro a b h
    unfold SaturatingRoundingDoublingHighMul
    rw [if_neg h]
    by_cases hpos : 0 ≤ a * b
    · rw [if_pos hpos, Int.tdiv_eq_ediv (by omega) (by norm_num)]
      omega
    · rw [if_neg hpos]
      have h1 : a * b + (1 - 2 ^ 30) = -(2 ^ 30 - 1 - a * b) := by ring
      rw [h1, Int.neg_tdiv, Int.tdiv_eq_ediv (by omega) (by norm_num)]
      omega

/-- Concrete check of the C7 theorem at the pair (7, 9) and at the saturating pair. -/
theorem C7_SaturatingRoundingDoublingHighMul_spec_witness :
    SaturatingRoundingDoublingHighMul 7 9 = SaturatingRoundingDoublingHighMul 9 7 ∧
    SaturatingRoundingDoublingHighMul 7 9 = (2 * (7 * 9) + 2 ^ 31) / 2 ^ 32 :=
  ⟨C7_SaturatingRoundingDoublingHighMul_spec.1 7 9,
   C7_SaturatingRoundingDoublingHighMul_spec.2.2 7 9 (by decide)⟩

/-- C2: whenever outputScale is nonzero, the value produced for any output element
lies in the representable unsigned 8-bit quantized range [0, 255] regardless of the
raw accumulator, and the final narrowing conversion therefore succeeds. -/
theorem C2_quantized_output_clamped (data : ConvData) (depthwise : Bool)
    (inputData : Nat → Int) (inputOffset : Int) (filterData : Nat → Int)
    (filterOffset : Int) (biasData : Nat → Int) (outputScale : ℚ)
    (qm : QuantizedMultiplierSmallerThanOne) (outputOffset : Int)
    (batchIdx cOutput yOutput xOutput : Nat) (h : outputScale ≠ 0) :
    0 ≤ ConvImplElem data depthwise inputData inputOffset filterData filterOffset biasData
        outputScale qm outputOffset batchIdx cOutput yOutput xOutput ∧
    ConvImplElem data depthwise inputData inputOffset filterData filterOffset biasData
        outputScale qm outputOffset batchIdx cOutput yOutput xOutput ≤ 255 ∧
    ConvImplWrite data depthwise inputData inputOffset filterData filterOffset biasData
        outputScale qm outputOffset batchIdx cOutput yOutput xOutput =
      some (ConvImplElem data depthwise inputData inputOffset filterData filterOffset biasData
        outputScale qm outputOffset batchIdx cOutput yOutput xOutput) := by
  have helem : ConvImplElem data depthwise inputData inputOffset filterData filterOffset
      biasData outputScale qm outputOffset batchIdx cOutput yOutput xOutput =
      min (max (quantizedMultiplierApply qm
        (accumulatorValue data depthwise inputData inputOffset filterData filterOffset biasData
          batchIdx cOutput yOutput xOutput) + outputOffset) 0) 255 := by
    unfold ConvImplElem requantize
    rw [if_pos h]
  rw [ConvImplWrite, helem]
  refine ⟨(clamp_mem _).1, (clamp_mem _).2, ?_⟩
  unfold numericCastU8
  rw [if_pos (clamp_mem _)]

/-- Concrete check of the C2 theorem: a huge all-ones window sum still lands in
[0, 255] after requantization. -/
theorem C2_quantized_output_clamped_witness :
    0 ≤ ConvImplElem identData false (fun _ => 1000000) 0 (fun _ => 1000) 0 (fun _ => 0)
        1 ⟨2 ^ 30, 0⟩ 0 0 0 0 0 ∧
    ConvImplElem identData false (fun _ => 1000000) 0 (fun _ => 1000) 0 (fun _ => 0)
        1 ⟨2 ^ 30, 0⟩ 0 0 0 0 0 ≤ 255 ∧
    ConvImplWrite identData false (fun _ => 1000000) 0 (fun _ => 1000) 0 (fun _ => 0)
        1 ⟨2 ^ 30, 0⟩ 0 0 0 0 0 =
      some (ConvImplElem identData false (fun _ => 1000000) 0 (fun _ => 1000) 0 (fun _ => 0)
        1 ⟨2 ^ 30, 0⟩ 0 0 0 0 0) :=
  C2_quantized_output_clamped identData false (fun _ => 1000000) 0 (fun _ => 1000) 0
    (fun _ => 0) 1 ⟨2 ^ 30, 0⟩ 0 0 0 0 0 (by decide)

/-- C5: when outputScale is zero the kernel takes the passthrough path: the raw
accumulator (window sum plus bias when enabled) is narrowed directly to the output
element type, with no fixed-point rescale, no outputOffset addition and no clamp. -/
theorem C5_passthrough (data : ConvData) (depthwise : Bool) (inputData : Nat → Int)
    (inputOffset : Int) (filterData : Nat → Int) (filterOffset : Int)
    (biasData : Nat → Int) (outputScale : ℚ) (qm : QuantizedMultiplierSmallerThanOne)
    (outputOffset : Int) (batchIdx cOutput yOutput xOutput : Nat)
    (h : outputScale = 0) :
    ConvImplElem data depthwise inputData inputOffset filterData filterOffset biasData
        outputScale qm outputOffset batchIdx cOutput yOutput xOutput =
      accumulatorValue data depthwise inputData inputOffset filterData filterOffset biasData
        batchIdx cOutput yOutput xOutput ∧
    ConvImplWrite data depthwise inputData inputOffset filterData filterOffset biasData
        outputScale qm outputOffset batchIdx cOutput yOutput xOutput =
      numericCastU8 (accumulatorValue data depthwise inputData inputOffset filterData
        filterOffset biasData batchIdx cOutput yOutput xOutput) := by
  have helem : ConvImplElem data depthwise inputData inputOffset filterData filterOffset
      biasData outputScale qm outputOffset batchIdx cOutput yOutput xOutput =
      accumulatorValue data depthwise inputData inputOffset filterData filterOffset biasData
        batchIdx cOutput yOutput xOutput := by
    unfold ConvImplElem requantize
    rw [h]
    simp
  exact ⟨helem, by rw [ConvImplWrite, helem]⟩

/-- Concrete check of the C5 theorem on the identity job. -/
theorem C5_passthrough_witness :
    ConvImplElem identData false identInput 0 (fun _ => 1) 0 (fun _ => 0)
        0 ⟨2 ^ 30, 0⟩ 9 0 0 0 0 =
      accumulatorValue identData false identInput 0 (fun _ => 1) 0 (fun _ => 0) 0 0 0 0 ∧
    ConvImplWrite identData false identInput 0 (fun _ => 1) 0 (fun _ => 0)
        0 ⟨2 ^ 30, 0⟩ 9 0 0 0 0 =
      numericCastU8 (accumulatorValue identData false identInput 0 (fun _ => 1) 0
        (fun _ => 0) 0 0 0 0) :=
  C5_passthrough identData false identInput 0 (fun _ => 1) 0 (fun _ => 0)
    0 ⟨2 ^ 30, 0⟩ 9 0 0 0 0 rfl

/-- C10: the final narrowing never silently wraps. On the quantized path the value is
already clamped into [0, 255], so the conversion to the unsigned 8-bit output type
always succeeds; on the passthrough path the conversion is range-checked, producing
the error value (none) for an out-of-range accumulator instead of a wrapped value. -/
theorem C10_narrowing_checked (data : ConvData) (depthwise : Bool)
    (inputData : Nat → Int) (inputOffset : Int) (filterData : Nat → Int)
    (filterOffset : Int) (biasData : Nat → Int) (outputScale : ℚ)
    (qm : QuantizedMultiplierSmallerThanOne) (outputOffset : Int)
    (batchIdx cOutput yOutput xOutput : Nat) :
    (outputScale ≠ 0 →
      ConvImplWrite data depthwise inputData inputOffset filterData filterOffset biasData
          outputScale qm outputOffset batchIdx cOutput yOutput xOutput =
        some (ConvImplElem data depthwise inputData inputOffset filterData filterOffset
          biasData outputScale qm outputOffset batchIdx cOutput yOutput xOutput)) ∧
    (outputScale = 0 →
      ConvImplWrite data depthwise inputData inputOffset filterData filterOffset biasData
          outputScale qm outputOffset batchIdx cOutput yOutput xOutput =
        if 0 ≤ accumulatorValue data depthwise inputData inputOffset filterData filterOffset
              biasData batchIdx cOutput yOutput xOutput ∧
            accumulatorValue data depthwise inputData inputOffset filterData filterOffset
              biasData batchIdx cOutput yOutput xOutput ≤ 255
        then some (accumulatorValue data depthwise inputData inputOffset filterData
          filterOffset biasData batchIdx cOutput yOutput xOutput)
        else none) := by
  constructor
  · intro h
    have helem : ConvImplElem data depthwise inputData inputOffset filterData filterOffset
        biasData outputScale qm outputOffset batchIdx cOutput yOutput xOutput =
        min (max (quantizedMultiplierApply qm
          (accumulatorValue data depthwise inputData inputOffset filterData filterOffset
            biasData batchIdx cOutput yOutput xOutput) + outputOffset) 0) 255 := by
      unfold ConvImplElem requantize
      rw [if_pos h]
    rw [ConvImplWrite, helem]
    unfold numericCastU8
    rw [if_pos (clamp_mem _)]
  · intro h
    have helem : ConvImplElem data depthwise inputData inputOffset filterData filterOffset
        biasData outputScale qm outputOffset batchIdx cOutput yOutput xOutput =
        accumulatorValue data depthwise inputData inputOffset filterData filterOffset
          biasData batchIdx cOutput yOutput xOutput := by
      unfold ConvImplElem requantize
      rw [h]
      simp
    rw [ConvImplWrite, helem]
    rfl

/-- Concrete check of the C10 theorem: a quantized write succeeds in range, and a
passthrough write is range-checked against [0, 255]. -/
theorem C10_narrowing_checked_witness :
    ConvImplWrite identData false (fun _ => 1000000) 0 (fun _ => 1000) 0 (fun _ => 0)
        1 ⟨2 ^ 30, 0⟩ 0 0 0 0 0 =
      some (ConvImplElem identData false (fun _ => 1000000) 0 (fun _ => 1000) 0 (fun _ => 0)
        1 ⟨2 ^ 30, 0⟩ 0 0 0 0 0) ∧
    ConvImplWrite identData false (fun _ => 1000) 0 (fun _ => 1000) 0 (fun _ => 0)
        0 ⟨0, 0⟩ 0 0 0 0 0 =
      (if 0 ≤ accumulatorValue identData false (fun _ => 1000) 0 (fun _ => 1000) 0
            (fun _ => 0) 0 0 0 0 ∧
          accumulatorValue identData false (fun _ => 1000) 0 (fun _ => 1000) 0
            (fun _ => 0) 0 0 0 0 ≤ 255
       then some (accumulatorValue identData false (fun _ => 1000) 0 (fun _ => 1000) 0
          (fun _ => 0) 0 0 0 0)
       else none) :=
  ⟨(C10_narrowing_checked identData false (fun _ => 1000000) 0 (fun _ => 1000) 0
      (fun _ => 0) 1 ⟨2 ^ 30, 0⟩ 0 0 0 0 0).1 (by decide),
   (C10_narrowing_checked identData false (fun _ => 1000) 0 (fun _ => 1000) 0
      (fun _ => 0) 0 ⟨0, 0⟩ 0 0 0 0 0).2 rfl⟩

/-- Sample job identical to padData except that the bias is enabled. -/
def biasJob : ConvData := ⟨⟨1, 1, 1, 1⟩, ⟨1, 1, 1, 1⟩, ⟨1, 1, 1, 1⟩, ⟨0, 0, 1, 1, true⟩⟩

/-- C8: calling the kernel with the bias enabled and a null bias buffer is the fatal
assertion (none; there is no recoverable-error return), a non-null bias buffer never
trips the assertion, and with the bias enabled bias[cOutput] is added to the
accumulator after the window accumulation and before requantization. -/
theorem C8_bias_assertion (data : ConvData) (inputData : Nat → Int) (inputOffset : Int)
    (filterData : Nat → Int) (filterOffset : Int) (outputScale : ℚ)
    (qm : QuantizedMultiplierSmallerThanOne) (outputOffset : Int) (depthwise : Bool) :
    (data.m_Parameters.m_BiasEnabled = true →
      ConvImpl data inputData inputOffset filterData filterOffset none outputScale qm
        outputOffset depthwise = none) ∧
    (∀ biasData : Nat → Int,
      ConvImpl data inputData inputOffset filterData filterOffset (some biasData)
          outputScale qm outputOffset depthwise =
        some (ConvImplOut data depthwise inputData inputOffset filterData filterOffset
          biasData outputScale qm outputOffset) ∧
      (data.m_Parameters.m_BiasEnabled = true →
        ∀ batchIdx cOutput yOutput xOutput : Nat,
          ConvImplElem data depthwise inputData inputOffset filterData filterOffset biasData
              outputScale qm outputOffset batchIdx cOutput yOutput xOutput =
            requantize outputScale qm outputOffset
              (windowSum data depthwise inputData inputOffset filterData filterOffset
                  batchIdx cOutput yOutput xOutput + biasData cOutput))) := by
  refine ⟨fun h => ?_, fun biasData => ⟨rfl, fun h batchIdx cOutput yOutput xOutput => ?_⟩⟩
  · simp [ConvImpl, h]
  · simp [ConvImplElem, accumulatorValue, h]

/-- Concrete check of the C8 theorem on a job with the bias enabled. -/
theorem C8_bias_assertion_witness :
    ConvImpl biasJob (fun _ => 1) 0 (fun _ => 1) 0 none 0 ⟨0, 0⟩ 0 false = none ∧
    ConvImplElem biasJob false (fun _ => 1) 0 (fun _ => 1) 0 (fun _ => 7) 0 ⟨0, 0⟩ 0
        0 0 0 0 =
      requantize 0 ⟨0, 0⟩ 0
        (windowSum biasJob false (fun _ => 1) 0 (fun _ => 1) 0 0 0 0 0 + 7) :=
  ⟨(C8_bias_assertion biasJob (fun _ => 1) 0 (fun _ => 1) 0 0 ⟨0, 0⟩ 0 false).1 rfl,
   ((C8_bias_assertion biasJob (fun _ => 1) 0 (fun _ => 1) 0 0 ⟨0, 0⟩ 0 false).2
      (fun _ => 7)).2 rfl 0 0 0 0⟩

/-- C1: a kernel-window position whose input coordinate falls in the padded border
contributes exactly zero to the accumulator (the zero-point is not subtracted from a
padded value), and consequently an output coordinate whose whole window lies in
padding evaluates, on the passthrough path, to the bias value when the bias is
enabled and to zero otherwise. -/
theorem C1_padding_contributes_zero (data : ConvData) (depthwise : Bool)
    (inputData : Nat → Int) (inputOffset : Int) (filterData : Nat → Int)
    (filterOffset : Int) (biasData : Nat → Int) (outputScale : ℚ)
    (qm : QuantizedMultiplierSmallerThanOne) (outputOffset : Int)
    (batchIdx cOutput yOutput xOutput : Nat)
    (hwin : ∀ yFilter, yFilter < data.filterShape.d2 →
      ∀ xFilter, xFilter < data.filterShape.d3 →
      inPadding data (yOutput * data.m_Parameters.m_StrideY + yFilter)
        (xOutput * data.m_Parameters.m_StrideX + xFilter))
    (hscale : outputScale = 0) :
    (∀ cInput depthwiseMultiplierIdx yFilter xFilter yInput xInput : Nat,
      inPadding data yInput xInput →
      inputValue data inputData inputOffset batchIdx cInput yInput xInput = 0 ∧
      filterValue data depthwise filterData filterOffset cOutput cInput
          depthwiseMultiplierIdx yFilter xFilter *
        inputValue data inputData inputOffset batchIdx cInput yInput xInput = 0) ∧
    ConvImplElem data depthwise inputData inputOffset filterData filterOffset biasData
        outputScale qm outputOffset batchIdx cOutput yOutput xOutput =
      (if data.m_Parameters.m_BiasEnabled then biasData cOutput else 0) := by
  have hzero : ∀ cInput yInput xInput, inPadding data yInput xInput →
      inputValue data inputData inputOffset batchIdx cInput yInput xInput = 0 := by
    intro cInput yInput xInput hp
    unfold inputValue
    rw [if_pos hp]
  constructor
  · intro cInput depthwiseMultiplierIdx yFilter xFilter yInput xInput hp
    exact ⟨hzero cInput yInput xInput hp, by rw [hzero cInput yInput xInput hp, mul_zero]⟩
  · have hsum : windowSum data depthwise inputData inputOffset filterData filterOffset
        batchIdx cOutput yOutput xOutput = 0 := by
      unfold windowSum
      apply List.sum_eq_zero
      intro z hz
      simp only [List.mem_map] at hz
      obtain ⟨cInput, hcInput, rfl⟩ := hz
      apply List.sum_eq_zero
      intro z hz
      simp only [List.mem_map, List.mem_range] at hz
      obtain ⟨yFilter, hyFilter, rfl⟩ := hz
      apply List.sum_eq_zero
      intro z hz
      simp only [List.mem_map, List.mem_range] at hz
      obtain ⟨xFilter, hxFilter, rfl⟩ := hz
      rw [hzero _ _ _ (hwin yFilter hyFilter xFilter hxFilter), mul_zero]
    unfold ConvImplElem requantize accumulatorValue
    rw [hscale, hsum]
    simp

/-- Concrete check of the C1 theorem: with one pixel of top and left padding over a
1x1 input, output coordinate (0, 0) sees only padding and evaluates to zero with the
bias disabled, even with nonzero input values and zero-points. -/
theorem C1_padding_contributes_zero_witness :
    ConvImplElem padData false (fun _ => 3) 7 (fun _ => 2) 1 (fun _ => 5) 0 ⟨0, 0⟩ 0
      0 0 0 0 = 0 :=
  (C1_padding_contributes_zero padData false (fun _ => 3) 7 (fun _ => 2) 1 (fun _ => 5) 0
    ⟨0, 0⟩ 0 0 0 0 0 (by decide) rfl).2

/-- Four-dimensional flat NCHW index bound. -/
lemma flat4_lt {B C H W b c u v : Nat} (hb : b < B) (hc : c < C) (hu : u < H)
    (hv : v < W) :
    b * (W * H * C) + c * (W * H) + u * W + v < B * (W * H * C) := by
  calc b * (W * H * C) + c * (W * H) + u * W + v
      < b * (W * H * C) + c * (W * H) + u * W + W := Nat.add_lt_add_left hv _
    _ = b * (W * H * C) + c * (W * H) + (u + 1) * W := by ring
    _ ≤ b * (W * H * C) + c * (W * H) + H * W :=
        Nat.add_le_add_left (Nat.mul_le_mul_right W hu) _
    _ = b * (W * H * C) + (c + 1) * (W * H) := by ring
    _ ≤ b * (W * H * C) + C * (W * H) :=
        Nat.add_le_add_left (Nat.mul_le_mul_right (W * H) hc) _
    _ = (b + 1) * (W * H * C) := by ring
    _ ≤ B * (W * H * C) := Nat.mul_le_mul_right (W * H * C) hb

/-- C9: for an in-region coordinate the contribution is the buffer element at the
flat NCHW index formed after subtracting the pad offsets from the coordinate, minus
the input zero-point; that index always stays inside the input buffer extent. -/
theorem C9_in_region_read (data : ConvData) (inputData : Nat → Int) (inputOffset : Int)
    (batchIdx cInput yInput xInput : Nat)
    (hyl : data.m_Parameters.m_PadTop ≤ yInput)
    (hyu : yInput < data.inputShape.d2 + data.m_Parameters.m_PadTop)
    (hxl : data.m_Parameters.m_PadLeft ≤ xInput)
    (hxu : xInput < data.inputShape.d3 + data.m_Parameters.m_PadLeft)
    (hb : batchIdx < data.inputShape.d0) (hc : cInput < channelsInput data) :
    inputValue data inputData inputOffset batchIdx cInput yInput xInput =
      inputData (batchIdx * (data.inputShape.d3 * data.inputShape.d2 * channelsInput data) +
        cInput * (data.inputShape.d3 * data.inputShape.d2) +
        (yInput - data.m_Parameters.m_PadTop) * data.inputShape.d3 +
        (xInput - data.m_Parameters.m_PadLeft)) - inputOffset ∧
    batchIdx * (data.inputShape.d3 * data.inputShape.d2 * channelsInput data) +
        cInput * (data.inputShape.d3 * data.inputShape.d2) +
        (yInput - data.m_Parameters.m_PadTop) * data.inputShape.d3 +
        (xInput - data.m_Parameters.m_PadLeft) <
      data.inputShape.d0 * (data.inputShape.d3 * data.inputShape.d2 * channelsInput data) := by
  have hpad : ¬ inPadding data yInput xInput := by
    unfold inPadding
    omega
  constructor
  · unfold inputValue
    rw [if_neg hpad]
    congr 2
    rw [Nat.add_sub_assoc hxl]
    ring
  · exact flat4_lt hb hc (by omega) (by omega)

/-- Concrete check of the C9 theorem at the in-region coordinate (1, 1) of the padded
1x1 job. -/
theorem C9_in_region_read_witness :
    inputValue padData (fun _ => 11) 4 0 0 1 1 =
      (fun _ => (11 : Int))
        (0 * (padData.inputShape.d3 * padData.inputShape.d2 * channelsInput padData) +
         0 * (padData.inputShape.d3 * padData.inputShape.d2) +
         (1 - padData.m_Parameters.m_PadTop) * padData.inputShape.d3 +
         (1 - padData.m_Parameters.m_PadLeft)) - 4 ∧
    0 * (padData.inputShape.d3 * padData.inputShape.d2 * channelsInput padData) +
        0 * (padData.inputShape.d3 * padData.inputShape.d2) +
        (1 - padData.m_Parameters.m_PadTop) * padData.inputShape.d3 +
        (1 - padData.m_Parameters.m_PadLeft) <
      padData.inputShape.d0 *
        (padData.inputShape.d3 * padData.inputShape.d2 * channelsInput padData) :=
  C9_in_region_read padData (fun _ => 11) 4 0 0 1 1 (by decide) (by decide) (by decide)
    (by decide) (by decide) (by decide)

/-- C6: a 1x1 all-ones filter with stride 1, no padding, no bias and outputScale zero
reproduces the input [[1, 2], [3, 4]] exactly, each element sitting at the flat output
position batch*Wout*Hout*Cout + cOutput*Wout*Hout + yOutput*Wout + xOutput. -/
theorem C6_identity_convolution :
    ConvImpl identData identInput 0 (fun _ => 1) 0 none 0 ⟨0, 0⟩ 0 false =
      some [some 1, some 2, some 3, some 4] ∧
    (ConvImplOut identData false identInput 0 (fun _ => 1) 0 (fun _ => 0) 0 ⟨0, 0⟩ 0).getD
        (0 * (2 * 2 * 1) + 0 * (2 * 2) + 0 * 2 + 0) none = some 1 ∧
    (ConvImplOut identData false identInput 0 (fun _ => 1) 0 (fun _ => 0) 0 ⟨0, 0⟩ 0).getD
        (0 * (2 * 2 * 1) + 0 * (2 * 2) + 0 * 2 + 1) none = some 2 ∧
    (ConvImplOut identData false identInput 0 (fun _ => 1) 0 (fun _ => 0) 0 ⟨0, 0⟩ 0).getD
        (0 * (2 * 2 * 1) + 0 * (2 * 2) + 1 * 2 + 0) none = some 3 ∧
    (ConvImplOut identData false identInput 0 (fun _ => 1) 0 (fun _ => 0) 0 ⟨0, 0⟩ 0).getD
        (0 * (2 * 2 * 1) + 0 * (2 * 2) + 1 * 2 + 1) none = some 4 := by
  decide

/-- C3: in depthwise mode exactly one input channel contributes to an output element,
namely cOutput / depthMult with multiplier index cOutput % depthMult, and the filter
elements read are exactly those at flat index multiplierIdx*kW*kH*Cin +
inChannel*kW*kH + filterRow*kW + filterCol; in standard mode every input channel
contributes with filter index cOutput*kW*kH*Cin + inChannel*kW*kH + filterRow*kW +
filterCol. -/
theorem C3_channel_mapping_and_filter_index (data : ConvData) (depthwise : Bool)
    (inputData : Nat → Int) (inputOffset : Int) (filterData : Nat → Int)
    (filterOffset : Int) (batchIdx cOutput yOutput xOutput : Nat) :
    windowSum data depthwise inputData inputOffset filterData filterOffset
        batchIdx cOutput yOutput xOutput =
      if depthwise then
        ((List.range data.filterShape.d2).map fun filterRow =>
          ((List.range data.filterShape.d3).map fun filterCol =>
            (filterData (cOutput % depthMult data depthwise *
                  (data.filterShape.d3 * data.filterShape.d2 * channelsInput data) +
                cOutput / depthMult data depthwise *
                  (data.filterShape.d3 * data.filterShape.d2) +
                filterRow * data.filterShape.d3 + filterCol) - filterOffset) *
              inputValue data inputData inputOffset batchIdx
                (cOutput / depthMult data depthwise)
                (yOutput * data.m_Parameters.m_StrideY + filterRow)
                (xOutput * data.m_Parameters.m_StrideX + filterCol)).sum).sum
      else
        ((List.range (channelsInput data)).map fun cInput =>
          ((List.range data.filterShape.d2).map fun filterRow =>
            ((List.range data.filterShape.d3).map fun filterCol =>
              (filterData (cOutput *
                    (data.filterShape.d3 * data.filterShape.d2 * channelsInput data) +
                  cInput * (data.filterShape.d3 * data.filterShape.d2) +
                  filterRow * data.filterShape.d3 + filterCol) - filterOffset) *
                inputValue data inputData inputOffset batchIdx cInput
                  (yOutput * data.m_Parameters.m_StrideY + filterRow)
                  (xOutput * data.m_Parameters.m_StrideX + filterCol)).sum).sum).sum := by
  cases depthwise
  case false =>
    simp only [windowSum, channelList, filterValue, filterIndex, Bool.false_eq_true,
      if_false]
    refine congrArg List.sum (List.map_congr_left fun cInput hcInput => ?_)
    refine congrArg List.sum (List.map_congr_left fun filterRow hrow => ?_)
    refine congrArg List.sum (List.map_congr_left fun filterCol hcol => ?_)
    ring_nf
  case true =>
    simp only [windowSum, channelList, filterValue, filterIndex, if_true,
      List.map_cons, List.map_nil, List.sum_cons, List.sum_nil, add_zero]
    refine congrArg List.sum (List.map_congr_left fun filterRow hrow => ?_)
    refine congrArg List.sum (List.map_congr_left fun filterCol hcol => ?_)
    ring_nf

/-- The standard-path job description for convolving one input channel alone: the
same spatial extents, padding, strides and bias flag, with single-channel input and
output and a [1, 1, kH, kW] filter shape. -/
def singleChannelData (data : ConvData) : ConvData :=
  { inputShape := ⟨data.inputShape.d0, 1, data.inputShape.d2, data.inputShape.d3⟩,
    outputShape := ⟨data.outputShape.d0, 1, data.outputShape.d2, data.outputShape.d3⟩,
    filterShape := ⟨1, 1, data.filterShape.d2, data.filterShape.d3⟩,
    m_Parameters := data.m_Parameters }

/-- Channel c of a flat NCHW buffer with channelsInput data channels, viewed as a
single-channel buffer with the same spatial extent. -/
def extractChannel (data : ConvData) (c : Nat) (buf : Nat → Int) : Nat → Int :=
  fun j =>
    buf (j / (data.inputShape.d3 * data.inputShape.d2) *
          (data.inputShape.d3 * data.inputShape.d2 * channelsInput data) +
        data.inputShape.d3 * data.inputShape.d2 * c +
        j % (data.inputShape.d3 * data.inputShape.d2))

/-- The single-channel slice of a depthwise filter buffer for output channel c. -/
def sliceFilter (data : ConvData) (c : Nat) (filterData : Nat → Int) : Nat → Int :=
  fun j => filterData (c * (data.filterShape.d3 * data.filterShape.d2) + j)

/-- The single-channel job has one input channel. -/
lemma channelsInput_singleChannelData (data : ConvData) :
    channelsInput (singleChannelData data) = 1 := rfl

/-- The single-channel job keeps the kernel height. -/
lemma singleChannelData_filter_d2 (data : ConvData) :
    (singleChannelData data).filterShape.d2 = data.filterShape.d2 := rfl

/-- The single-channel job keeps the kernel width. -/
lemma singleChannelData_filter_d3 (data : ConvData) :
    (singleChannelData data).filterShape.d3 = data.filterShape.d3 := rfl

/-- The single-channel job keeps the descriptor. -/
lemma singleChannelData_params (data : ConvData) :
    (singleChannelData data).m_Parameters = data.m_Parameters := rfl

/-- Index arithmetic for reading a channel through extractChannel: the flat
single-channel index decodes back to the original multi-channel flat index. -/
lemma extract_index_eq (w t k b c u v p x : Nat) (hw : 0 < w) (ht : 0 < t)
    (hu : u < t) (hv : v < w) (hx : x = v + p) :
    (b * w * t * 1 + w * t * 0 + w * u + x - p) / (w * t) * (w * t * k) +
      w * t * c + (b * w * t * 1 + w * t * 0 + w * u + x - p) % (w * t) =
    b * w * t * k + w * t * c + w * u + x - p := by
  subst hx
  have h1 : b * w * t * 1 + w * t * 0 + w * u + (v + p) - p = w * t * b + (w * u + v) := by
    rw [← Nat.add_assoc, Nat.add_sub_cancel]
    ring
  have h2 : b * w * t * k + w * t * c + w * u + (v + p) - p
      = b * w * t * k + w * t * c + w * u + v := by
    rw [← Nat.add_assoc, Nat.add_sub_cancel]
  rw [h1, h2, Nat.mul_add_div (Nat.mul_pos hw ht), Nat.div_eq_of_lt (sub2_lt hu hv),
    Nat.mul_add_mod, Nat.mod_eq_of_lt (sub2_lt hu hv)]
  ring

/-- Reading through extractChannel at a single-channel coordinate equals reading the
original buffer at the corresponding channel-c coordinate. -/
lemma inputValue_extractChannel (data : ConvData) (buf : Nat → Int) (inputOffset : Int)
    (b c y x : Nat) :
    inputValue (singleChannelData data) (extractChannel data c buf) inputOffset b 0 y x =
      inputValue data buf inputOffset b c y x := by
  by_cases hp : inPadding data y x
  · have hp' : inPadding (singleChannelData data) y x := hp
    unfold inputValue
    rw [if_pos hp, if_pos hp']
  · have hp' : ¬ inPadding (singleChannelData data) y x := hp
    unfold inputValue
    rw [if_neg hp, if_neg hp']
    unfold inPadding at hp
    push_neg at hp
    obtain ⟨hy1, hy2, hx1, hx2⟩ := hp
    simp only [extractChannel, singleChannelData, channelsInput]
    exact congrArg (fun n => buf n - inputOffset)
      (extract_index_eq data.inputShape.d3 data.inputShape.d2 data.filterShape.d1
        b c (y - data.m_Parameters.m_PadTop) (x - data.m_Parameters.m_PadLeft)
        data.m_Parameters.m_PadLeft x (by omega) (by omega) (by omega) (by omega)
        (by omega))

/-- The depthwise window sum with depth multiplier 1 equals the standard-path window
sum of the corresponding single-channel job. -/
lemma windowSum_depthwise_eq_single (data : ConvData) (inputData filterData : Nat → Int)
    (inputOffset filterOffset : Int) (hf0 : data.filterShape.d0 = 1) (b c y x : Nat) :
    windowSum data true inputData inputOffset filterData filterOffset b c y x =
      windowSum (singleChannelData data) false (extractChannel data c inputData)
        inputOffset (sliceFilter data c filterData) filterOffset b 0 y x := by
  unfold windowSum channelList
  simp only [channelsInput_singleChannelData, singleChannelData_filter_d2,
    singleChannelData_filter_d3, singleChannelData_params, depthMult, hf0, eq_self_iff_true,
    Bool.false_eq_true, if_true, if_false, Nat.div_one, Nat.mod_one,
    List.range_succ, List.range_zero, List.nil_append, List.map_cons, List.map_nil,
    List.sum_cons, List.sum_nil, add_zero]
  refine congrArg List.sum (List.map_congr_left fun yFilter hyF => ?_)
  refine congrArg List.sum (List.map_congr_left fun xFilter hxF => ?_)
  rw [inputValue_extractChannel]
  congr 1
  unfold filterValue filterIndex sliceFilter
  simp only [singleChannelData, channelsInput, eq_self_iff_true, Bool.false_eq_true,
    if_true, if_false]
  ring_nf

/-- C4: depthwise convolution with depth multiplier 1 on a 2-channel input produces,
at every output coordinate of channel c < 2, exactly the standard-path convolution of
input channel c alone with the corresponding single-channel filter slice and bias —
the concatenation of the per-channel standard results along the channel dimension. -/
theorem C4_depthwise_matches_per_channel_standard (data : ConvData)
    (inputData filterData biasData : Nat → Int) (inputOffset filterOffset : Int)
    (outputScale : ℚ) (qm : QuantizedMultiplierSmallerThanOne) (outputOffset : Int)
    (hf0 : data.filterShape.d0 = 1) (hf1 : data.filterShape.d1 = 2)
    (hin : data.inputShape.d1 = 2) (batchIdx cOutput yOutput xOutput : Nat)
    (hc : cOutput < 2) :
    ConvImplElem data true inputData inputOffset filterData filterOffset biasData
        outputScale qm outputOffset batchIdx cOutput yOutput xOutput =
      ConvImplElem (singleChannelData data) false (extractChannel data cOutput inputData)
        inputOffset (sliceFilter data cOutput filterData) filterOffset
        (fun i => biasData cOutput) outputScale qm outputOffset batchIdx 0
        yOutput xOutput := by
  unfold ConvImplElem accumulatorValue
  rw [windowSum_depthwise_eq_single data inputData filterData inputOffset filterOffset hf0]
  rfl

/-- Concrete check of the C4 theorem: a 2-channel 2x2 depthwise job with a 1x1 filter
agrees with the per-channel standard convolution at channel 1. -/
theorem C4_depthwise_matches_per_channel_standard_witness :
    ConvImplElem ⟨⟨1, 2, 2, 2⟩, ⟨1, 2, 2, 2⟩, ⟨1, 2, 1, 1⟩, ⟨0, 0, 1, 1, false⟩⟩ true
        (fun i => (i : Int)) 1 (fun i => (2 * i + 1 : Int)) 0 (fun i => 9) 0 ⟨0, 0⟩ 0
        0 1 1 0 =
      ConvImplElem
        (singleChannelData ⟨⟨1, 2, 2, 2⟩, ⟨1, 2, 2, 2⟩, ⟨1, 2, 1, 1⟩, ⟨0, 0, 1, 1, false⟩⟩)
        false
        (extractChannel ⟨⟨1, 2, 2, 2⟩, ⟨1, 2, 2, 2⟩, ⟨1, 2, 1, 1⟩, ⟨0, 0, 1, 1, false⟩⟩ 1
          (fun i => (i : Int)))
        1
        (sliceFilter ⟨⟨1, 2, 2, 2⟩, ⟨1, 2, 2, 2⟩, ⟨1, 2, 1, 1⟩, ⟨0, 0, 1, 1, false⟩⟩ 1
          (fun i => (2 * i + 1 : Int)))
        0 (fun i => (9 : Int)) 0 ⟨0, 0⟩ 0 0 0 1 0 :=
  C4_depthwise_matches_per_channel_standard
    ⟨⟨1, 2, 2, 2⟩, ⟨1, 2, 2, 2⟩, ⟨1, 2, 1, 1⟩, ⟨0, 0, 1, 1, false⟩⟩
    (fun i => (i : Int)) (fun i => (2 * i + 1 : Int)) (fun i => 9) 1 0 0 ⟨0, 0⟩ 0
    rfl rfl rfl 0 1 1 0 (by decide)

end ArmnnRef
